import Mathlib

set_option linter.unusedVariables false

/-!
Shallow embedding of the led-sectional firmware (two variants:
`led_sectional.ino`, the JSON parser variant, and `led-sectional.ino`,
the XML streaming-parser variant), together with proofs about the
indicator-state derivation engine: base-color resolution, wind tiering,
hazard index sets, legend invariance, blink passes, the fetch/retry
scheduler and the two report parsers.
-/

namespace LedSectional

/-- FastLED `CRGB`: an RGB triple of bytes. -/
structure CRGB where
  r : Nat
  g : Nat
  b : Nat
deriving DecidableEq, Repr

/-- `CRGB::Black` (0x000000). -/
def black : CRGB := ⟨0, 0, 0⟩
/-- `CRGB::Green` (0x008000). -/
def green : CRGB := ⟨0, 128, 0⟩
/-- `CRGB::Red` (0xFF0000). -/
def red : CRGB := ⟨255, 0, 0⟩
/-- `CRGB::Blue` (0x0000FF). -/
def blue : CRGB := ⟨0, 0, 255⟩
/-- `CRGB::Magenta` (0xFF00FF). -/
def magenta : CRGB := ⟨255, 0, 255⟩
/-- `CRGB::Yellow` (0xFFFF00). -/
def yellow : CRGB := ⟨255, 255, 0⟩
/-- `CRGB::White` (0xFFFFFF). -/
def white : CRGB := ⟨255, 255, 255⟩
/-- `CRGB::Orange` (0xFFA500). -/
def orange : CRGB := ⟨255, 165, 0⟩
/-- `CRGB::Purple` (0x800080). -/
def purple : CRGB := ⟨128, 0, 128⟩
/-- `CRGB::Gray` (0x808080). -/
def gray : CRGB := ⟨128, 128, 128⟩
/-- `CRGB::Cyan` (0x00FFFF). -/
def cyan : CRGB := ⟨0, 255, 255⟩

/-- FastLED `CRGB::nscale8(scale)`: each channel becomes `x * scale / 256`. -/
def nscale8 (c : CRGB) (scale : Nat) : CRGB :=
  ⟨c.r * scale / 256, c.g * scale / 256, c.b * scale / 256⟩

/-- One channel of FastLED `nscale8x3_video`: `(x*scale) >> 8`, plus 1 when both
`x` and `scale` are nonzero (so nonblack never fades fully to black). -/
def scale8Video (x scale : Nat) : Nat :=
  x * scale / 256 + (if x ≠ 0 ∧ scale ≠ 0 then 1 else 0)

/-- FastLED `CRGB::operator%=(scale)` (video scaling of all three channels),
used for the fade-mode wind blink `leds[currentLed] %= 128`. -/
def scaleVideo (c : CRGB) (scale : Nat) : CRGB :=
  ⟨scale8Video c.r scale, scale8Video c.g scale, scale8Video c.b scale⟩

/-- The dim neutral "airport reporting but no flight category" color of the
JSON variant: `CRGB::Gray` scaled by `nscale8(51)` (20% brightness). -/
def dimNeutral : CRGB := nscale8 gray 51

/-- `haystack` contains `needle` as a contiguous substring
(Arduino `String::indexOf(sub) != -1`). -/
def containsSubstr (haystack needle : List Char) : Bool :=
  match haystack with
  | [] => needle.isEmpty
  | _ :: tl => needle.isPrefixOf haystack || containsSubstr tl needle

/-- Lightning/thunderstorm detection shared by both variants:
`wxstring.indexOf("TS") != -1 || rawText.indexOf("LTG") != -1 ||
rawText.indexOf("LTNG") != -1`. -/
def lightningCond (wxstring rawText : String) : Bool :=
  containsSubstr wxstring.toList "TS".toList ||
  containsSubstr rawText.toList "LTG".toList ||
  containsSubstr rawText.toList "LTNG".toList

/-- The severe-wind test of `doColor`:
`(wind > HIGH_WIND_THRESHOLD) || (gusts > HIGH_WIND_THRESHOLD)`,
abstracted over the threshold. -/
def severeCond (wind gusts h : Int) : Bool :=
  decide (wind > h) || decide (gusts > h)

/-- The moderate-wind test of `doColor`: the `else if` branch
`(wind > WIND_THRESHOLD) || (gusts > WIND_THRESHOLD)`, reached only when the
severe test failed; abstracted over both thresholds. -/
def moderateCond (wind gusts m h : Int) : Bool :=
  !severeCond wind gusts h && (decide (wind > m) || decide (gusts > m))

/-- Mutable per-cycle state shared by `getMetars`/`doColor`: the LED array and
the three global hazard index vectors. -/
structure CycleState where
  leds : List CRGB
  lightningLeds : List Nat
  windLeds : List Nat
  highwindLeds : List Nat
deriving DecidableEq, Repr

@[simp] theorem CycleState.leds_mk (a : List CRGB) (b c d : List Nat) :
    (CycleState.mk a b c d).leds = a := rfl

@[simp] theorem CycleState.lightningLeds_mk (a : List CRGB) (b c d : List Nat) :
    (CycleState.mk a b c d).lightningLeds = b := rfl

@[simp] theorem CycleState.windLeds_mk (a : List CRGB) (b c d : List Nat) :
    (CycleState.mk a b c d).windLeds = c := rfl

@[simp] theorem CycleState.highwindLeds_mk (a : List CRGB) (b c d : List Nat) :
    (CycleState.mk a b c d).highwindLeds = d := rfl

end LedSectional

namespace LedSectional

/-! ## JSON variant (`led_sectional.ino`, BOARD_CONFIG_ASA active) -/

namespace JsonV

/-- `NUM_AIRPORTS` for the active `BOARD_CONFIG_ASA` configuration. -/
def NUM_AIRPORTS : Nat := 34

/-- `WIND_THRESHOLD` (same for all boards). -/
def WIND_THRESHOLD : Int := 15

/-- `HIGH_WIND_THRESHOLD` for `BOARD_CONFIG_ASA`. -/
def HIGH_WIND_THRESHOLD : Int := 25

/-- The ASA airports vector: 5 legend entries followed by airport codes. -/
def airports : List String :=
  [ "VFR", "MVFR", "IFR", "LIFR", "WVFR",
    "NULL", "KUIL", "NULL", "NULL", "NULL",
    "KHQM", "NULL", "KSHN", "KOLM", "KGRF",
    "KPLU", "KTCM", "KTIW", "KPWT", "KSEA",
    "KRNT", "KBFI", "KPAE", "KAWO", "NULL",
    "K0S9", "KNUW", "KBVS", "KBLI", "KFHR",
    "KORS", "CYYJ", "NULL", "KCLM" ]

/-- `doColor` of the JSON variant: skips legend slots (`led < 5`), pushes the
slot into the hazard index vectors, and stores the resolved base color. -/
def doColor (identifier : String) (led : Nat) (wind gusts : Int)
    (condition wxstring currentRawText : String) (s : CycleState) : CycleState :=
  if led < 5 then s
  else
    let s1 :=
      if lightningCond wxstring currentRawText then
        { s with lightningLeds := s.lightningLeds ++ [led] }
      else s
    let s2 :=
      if severeCond wind gusts HIGH_WIND_THRESHOLD then
        { s1 with highwindLeds := s1.highwindLeds ++ [led] }
      else if decide (wind > WIND_THRESHOLD) || decide (gusts > WIND_THRESHOLD) then
        { s1 with windLeds := s1.windLeds ++ [led] }
      else s1
    let color :=
      if condition = "LIFR" then magenta
      else if condition = "IFR" then red
      else if condition = "MVFR" then blue
      else if condition = "VFR" then green
      else if decide (wind > 0) || decide (gusts > 0) ||
              lightningCond wxstring currentRawText then dimNeutral
      else black
    { s2 with leds := s2.leds.set led color }

/-- The slot-matching loop of `getMetars`: all indices `i < NUM_AIRPORTS` with
`airports[i] == currentMetar.icaoId` (an airport may appear multiple times). -/
def slotsFor (icaoId : String) : List Nat :=
  (List.range NUM_AIRPORTS).filter (fun i => airports.getD i "" = icaoId)

/-- One fetched METAR after field extraction (struct `MetarData`). -/
structure MetarData where
  icaoId : String
  fltCat : String
  wspd : Int
  wgst : Int
  wxString : String
  rawOb : String
deriving DecidableEq, Repr

/-- First index of character `c` in `cs` (Arduino `String::indexOf(c)`,
with `none` for the `-1` not-found result). -/
def firstIdxOf (cs : List Char) (c : Char) : Option Nat :=
  match cs with
  | [] => none
  | hd :: tl =>
    if hd = c then some 0
    else (firstIdxOf tl c).map (· + 1)

/-- `unsigned int` subtraction `len - 3` as computed by
`rawOb.length() - 3` in C++ (wraps modulo 2^32 when `len < 3`). -/
def lenSub3 (len : Nat) : Nat := (len + 2 ^ 32 - 3) % 2 ^ 32

/-- Decimal value of a digit string (Arduino `String::toInt` on the
all-digit string accumulated by the gust scan). -/
def digitsToInt (cs : List Char) : Int :=
  cs.foldl (fun n c => n * 10 + (c.toNat - 48)) 0

/-- The gust-derivation fallback of the JSON `getMetars` (wind gusts are not a
JSON field): find the first `'G'` in `rawOb`; if its index is positive and less
than `rawOb.length() - 3` (unsigned), collect the digits immediately following
it; if any digits were collected, their value is the gust speed, else 0. -/
def parseGust (rawOb : String) : Int :=
  let cs := rawOb.toList
  if cs.length > 0 then
    match firstIdxOf cs 'G' with
    | none => 0
    | some gustIndex =>
      if gustIndex > 0 ∧ gustIndex < lenSub3 cs.length then
        let gustStr := (cs.drop (gustIndex + 1)).takeWhile Char.isDigit
        if gustStr.length > 0 then digitsToInt gustStr else 0
      else 0
  else 0

/-- Projection of one JSON object of the response array (fields `icaoId`,
`fltCat`, `wspd`, `wxString`, `rawOb`; missing `fltCat`/`wspd`/`wxString`
default to `""`/`0`/`""` via `operator|`). -/
structure JsonRecord where
  icaoId : String
  fltCat : String
  wspd : Int
  wxString : String
  rawOb : String
deriving DecidableEq, Repr

/-- Building `currentMetar` from one JSON object: all fields copied, and
`wgst` derived from `rawOb` by the gust-parsing fallback. -/
def toMetar (j : JsonRecord) : MetarData :=
  { icaoId := j.icaoId, fltCat := j.fltCat, wspd := j.wspd,
    wgst := parseGust j.rawOb, wxString := j.wxString, rawOb := j.rawOb }

/-- Resolving one METAR: `doColor` is called once per matching slot. -/
def processRecord (s : CycleState) (m : MetarData) : CycleState :=
  (slotsFor m.icaoId).foldl
    (fun s i => doColor m.icaoId i m.wspd m.wgst m.fltCat m.wxString m.rawOb s) s

/-- The reset loop run after a successful JSON parse:
`for (int i = 5; i < NUM_AIRPORTS; i++) leds[i] = CRGB::Black;`
(legend LEDs 0-4 preserved). -/
def blankNonLegend (leds : List CRGB) : List CRGB :=
  (List.range' 5 (NUM_AIRPORTS - 5)).foldl (fun a i => a.set i black) leds

/-- The resolve phase of a successful fetch cycle: hazard vectors already
cleared, weather LEDs blanked, then every record processed in order. -/
def resolveBatch (records : List MetarData) (leds : List CRGB) : CycleState :=
  records.foldl processRecord ⟨blankNonLegend leds, [], [], []⟩

/-- Outcome of the network/parse portion of a JSON fetch cycle.  All failure
constructors correspond to the early `return false` paths of `getMetars`
(connect failure, timeout while waiting for the connection, timeout or missing
blank line while reading headers, empty body, `deserializeJson` error); the
success constructor carries the parsed array. -/
inductive FetchOutcome where
  | connectFail
  | connectWaitTimeout
  | headerTimeout
  | noJsonFound
  | emptyBody
  | deserializeError
  | success (records : List JsonRecord)
deriving DecidableEq, Repr

/-- `FetchOutcome` failure discriminator. -/
def FetchOutcome.isFailure : FetchOutcome → Bool
  | .success _ => false
  | _ => true

/-- `getMetars` of the JSON variant as a function of the fetch outcome and the
LED array: the three hazard vectors are cleared on entry; the LED array is
first written only after `deserializeJson` succeeds (blank weather LEDs, then
resolve each record); every failure path returns `false` with the LED array
untouched. -/
def getMetars (outcome : FetchOutcome) (leds : List CRGB) : Bool × CycleState :=
  match outcome with
  | .success records => (true, resolveBatch (records.map toMetar) leds)
  | _ => (false, ⟨leds, [], [], []⟩)

/-- `setStatusLEDs(color)`: sets every weather LED (index ≥ 5) to `color`,
preserving the legend (first 5 LEDs). -/
def setStatusLEDs (color : CRGB) (leds : List CRGB) : List CRGB :=
  (List.range' 5 (NUM_AIRPORTS - 5)).foldl (fun a i => a.set i color) leds

/-- One iteration of the capture/overlay loop of `blinkLEDs`: remember the
slot's current color, then overwrite it with the 50%-faded color (fade mode) or
the flat blink color. -/
def blinkStep (blinkColor : CRGB) (fadeMode : Bool)
    (st : List CRGB × List CRGB) (currentLed : Nat) : List CRGB × List CRGB :=
  let leds := st.1
  let originalColors := st.2 ++ [leds.getD currentLed black]
  let leds :=
    if fadeMode then leds.set currentLed (scaleVideo (leds.getD currentLed black) 128)
    else leds.set currentLed blinkColor
  (leds, originalColors)

/-- The overlay written by the fade-mode or flat-mode blink at slot `i`,
computed from the pre-pass array. -/
def overlayVal (bc : CRGB) (f : Bool) (x : List CRGB) (i : Nat) : CRGB :=
  if f then scaleVideo (x.getD i black) 128 else bc

/-- `blinkLEDs(ledList, blinkColor, ..., fadeMode)`: empty list short-circuits
with no driver push; otherwise capture + overlay each listed slot, push, hold,
restore every remembered color, push again.  Returns the final LED array and
the list of frames pushed to the driver (`FastLED.show()` calls). -/
def blinkLEDs (ledList : List Nat) (blinkColor : CRGB) (fadeMode : Bool)
    (leds : List CRGB) : List CRGB × List (List CRGB) :=
  if ledList.isEmpty then (leds, [])
  else
    let applied := ledList.foldl (blinkStep blinkColor fadeMode) (leds, [])
    let restored := (ledList.zip applied.2).foldl (fun a p => a.set p.1 p.2) applied.1
    (restored, [applied.1, restored])

/-! ### Poll scheduler (the `loop()` counter logic) -/

/-- `LOOP_INTERVAL` in ms. -/
def LOOP_INTERVAL : Nat := 1000
/-- `REQUEST_INTERVAL` in ms. -/
def REQUEST_INTERVAL : Nat := 300000
/-- `RETRY_TIMEOUT` in ms. -/
def RETRY_TIMEOUT : Nat := 15000
/-- `DO_LIGHTNING`. -/
def DO_LIGHTNING : Bool := true
/-- `DO_WINDS`. -/
def DO_WINDS : Bool := true
/-- `USE_LIGHT_SENSOR`. -/
def USE_LIGHT_SENSOR : Bool := false

/-- `loopThreshold` as computed each tick in `loop()`. -/
def loopThreshold : Nat :=
  if DO_LIGHTNING || DO_WINDS || USE_LIGHT_SENSOR then REQUEST_INTERVAL / LOOP_INTERVAL
  else 1

/-- Result of one `loop()` tick (connected case): the new value of the global
`loops` counter, whether `getMetars` was attempted, and the delay taken at the
end of the tick. -/
structure TickResult where
  loops : Int
  fetched : Bool
  delayMs : Nat
deriving DecidableEq, Repr

/-- The fetch-interval counter logic of `loop()` once connected: `loops++`;
if `loops >= loopThreshold || loops == 0` then `loops = 0` and `getMetars` is
attempted — on success the tick ends with `delay(LOOP_INTERVAL)` (hazards
present) or `delay(REQUEST_INTERVAL)`, on failure with `delay(RETRY_TIMEOUT)`;
otherwise no fetch and `delay(LOOP_INTERVAL)`. -/
def loopTick (loops : Int) (fetchOk hazardsPresent : Bool) : TickResult :=
  let l := loops + 1
  if l ≥ (loopThreshold : Int) ∨ l = 0 then
    if fetchOk then
      { loops := 0, fetched := true,
        delayMs := if hazardsPresent then LOOP_INTERVAL else REQUEST_INTERVAL }
    else
      { loops := 0, fetched := true, delayMs := RETRY_TIMEOUT }
  else
    { loops := l, fetched := false, delayMs := LOOP_INTERVAL }

/-! ### System-level operations touching the LED array -/

/-- The operations that can write the LED array after initialization:
a fetch cycle, a connectivity-status fill, and the three hazard blink passes
(each pass uses the current global hazard vector and the colors hardwired at
its call site in `loop()`). -/
inductive Op where
  | fetch (outcome : FetchOutcome)
  | status (color : CRGB)
  | blinkLightning
  | blinkHighwind
  | blinkWind
deriving DecidableEq, Repr

/-- `FADE_FOR_HIGH_WINDS`. -/
def FADE_FOR_HIGH_WINDS : Bool := true

/-- Effect of one operation on the LED array and hazard vectors. -/
def step (s : CycleState) : Op → CycleState
  | .fetch outcome => (getMetars outcome s.leds).2
  | .status color => { s with leds := setStatusLEDs color s.leds }
  | .blinkLightning =>
    { s with leds := (blinkLEDs s.lightningLeds white false s.leds).1 }
  | .blinkHighwind =>
    { s with leds := (blinkLEDs s.highwindLeds yellow false s.leds).1 }
  | .blinkWind =>
    { s with leds := (blinkLEDs s.windLeds black FADE_FOR_HIGH_WINDS s.leds).1 }

/-- All three hazard index vectors name only non-legend slots. -/
def vecsNonLegend (s : CycleState) : Prop :=
  ∀ i, (i ∈ s.lightningLeds ∨ i ∈ s.windLeds ∨ i ∈ s.highwindLeds) → 5 ≤ i

end JsonV

/-! ## XML variant (`led-sectional.ino`) -/

namespace XmlV

/-- `NUM_AIRPORTS` of the XML variant. -/
def NUM_AIRPORTS : Nat := 25

/-- `WIND_THRESHOLD` of the XML variant. -/
def WIND_THRESHOLD : Int := 14

/-- `HIGH_WIND_THRESHOLD` of the XML variant. -/
def HIGH_WIND_THRESHOLD : Int := 19

/-- The airports vector of the XML variant (no legend prefix; `"NULL"`
marks gaps). -/
def airports : List String :=
  [ "KGLS", "KT41", "KEFD", "KHOU", "KLVJ",
    "KAXH", "KSGR", "NULL", "KLBX", "KBYY",
    "KARM", "KELA", "KTME", "KDWH", "KIAH",
    "NULL", "KT78", "K6R3", "KCXO", "KUTS",
    "NULL", "KCFD", "KCLL", "K60R", "K11R" ]

/-- `doColor` of the XML variant: no legend guard; hazard vectors as in the
JSON variant but with the XML thresholds; base color falls back to plain
`CRGB::Black` whenever the flight category matches none of the four (there is
no dim-neutral branch in this variant). -/
def doColor (identifier : String) (led : Nat) (wind gusts : Int)
    (condition wxstring currentRawText : String) (s : CycleState) : CycleState :=
  let s1 :=
    if lightningCond wxstring currentRawText then
      { s with lightningLeds := s.lightningLeds ++ [led] }
    else s
  let s2 :=
    if severeCond wind gusts HIGH_WIND_THRESHOLD then
      { s1 with highwindLeds := s1.highwindLeds ++ [led] }
    else if decide (wind > WIND_THRESHOLD) || decide (gusts > WIND_THRESHOLD) then
      { s1 with windLeds := s1.windLeds ++ [led] }
    else s1
  let color :=
    if condition = "LIFR" ∨ identifier = "LIFR" then magenta
    else if condition = "IFR" then red
    else if condition = "MVFR" then blue
    else if condition = "VFR" then green
    else black
  { s2 with leds := s2.leds.set led color }

/-- Arduino `String::toInt` (`atol`): optional sign then leading digits;
`0` when the string does not start with a number. -/
def toIntA (cs : List Char) : Int :=
  match cs with
  | '-' :: tl => -(digitsToIntA tl)
  | '+' :: tl => digitsToIntA tl
  | _ => digitsToIntA cs
where
  /-- Value of the leading digit run. -/
  digitsToIntA (cs : List Char) : Int :=
    (cs.takeWhile Char.isDigit).foldl (fun n c => n * 10 + ((c.toNat : Int) - 48)) 0

/-- The slot-matching loop run when `</station_id>` closes:
all indices with `airports[i] == currentAirport`. -/
def slotsFor (currentAirport : String) : List Nat :=
  (List.range NUM_AIRPORTS).filter (fun i => airports.getD i "" = currentAirport)

/-- Arguments of one deferred `doColor` call made by the streaming parser. -/
structure Emission where
  identifier : String
  led : Nat
  wind : Int
  gusts : Int
  condition : String
  wxstring : String
  rawText : String
deriving DecidableEq, Repr

/-- State of the delimited-tag streaming parser inside `getMetars`:
the current line, the per-field accumulation buffers, the six
"currently reading field X" booleans, the matched-slot list `led`, and the
sequence of `doColor` calls issued so far. -/
structure ParserState where
  currentLine : List Char
  currentRawText : List Char
  currentAirport : List Char
  currentCondition : List Char
  currentWind : List Char
  currentGusts : List Char
  currentWxstring : List Char
  readingRawText : Bool
  readingAirport : Bool
  readingCondition : Bool
  readingWind : Bool
  readingGusts : Bool
  readingWxstring : Bool
  led : List Nat
  emitted : List Emission
deriving DecidableEq, Repr

/-- The parser's start state (all buffers empty, all flags false). -/
def initState : ParserState :=
  ⟨[], [], [], [], [], [], [], false, false, false, false, false, false, [], []⟩

/-- `currentLine.endsWith(tag)`. -/
def endsWithTag (line : List Char) (tag : String) : Bool :=
  tag.toList.isSuffixOf line

/-- The `doColor` calls of one flush of the pending record: one per matched
slot, with the current buffers as arguments. -/
def flushEmissions (s : ParserState) : List Emission :=
  s.led.map (fun i =>
    ⟨⟨s.currentAirport⟩, i, toIntA s.currentWind, toIntA s.currentGusts,
      ⟨s.currentCondition⟩, ⟨s.currentWxstring⟩, ⟨s.currentRawText⟩⟩)

/-- The line value after reading character `c`:
`currentLine += c; if (c == '\n') currentLine = "";`. -/
def lineAfter (s : ParserState) (c : Char) : List Char :=
  if c = '\n' then [] else s.currentLine ++ [c]

/-- One character of the streaming-parser loop body of the XML `getMetars`,
with the branch structure of the source: the `<raw_text>` start-of-record
marker flushes the pending record and resets every buffer; while a field is
open, content accumulates until a `<` arrives; otherwise the five remaining
opening tags arm their respective field. -/
def processChar (s : ParserState) (c : Char) : ParserState :=
  let line := lineAfter s c
  let s := { s with currentLine := line }
  if endsWithTag line "<raw_text>" then
    let s :=
      if s.led.isEmpty then s
      else { s with emitted := s.emitted ++ flushEmissions s, led := [] }
    { s with currentRawText := [], currentAirport := [], readingRawText := true,
             currentCondition := [], currentWind := [], currentGusts := [],
             currentWxstring := [] }
  else if s.readingRawText then
    if !endsWithTag line "<" then { s with currentRawText := s.currentRawText ++ [c] }
    else { s with readingRawText := false }
  else if endsWithTag line "<station_id>" then
    { s with readingAirport := true }
  else if s.readingAirport then
    if !endsWithTag line "<" then { s with currentAirport := s.currentAirport ++ [c] }
    else { s with readingAirport := false,
                  led := s.led ++ slotsFor ⟨s.currentAirport⟩ }
  else if endsWithTag line "<wind_speed_kt>" then
    { s with readingWind := true }
  else if s.readingWind then
    if !endsWithTag line "<" then { s with currentWind := s.currentWind ++ [c] }
    else { s with readingWind := false }
  else if endsWithTag line "<wind_gust_kt>" then
    { s with readingGusts := true }
  else if s.readingGusts then
    if !endsWithTag line "<" then { s with currentGusts := s.currentGusts ++ [c] }
    else { s with readingGusts := false }
  else if endsWithTag line "<flight_category>" then
    { s with readingCondition := true }
  else if s.readingCondition then
    if !endsWithTag line "<" then { s with currentCondition := s.currentCondition ++ [c] }
    else { s with readingCondition := false }
  else if endsWithTag line "<wx_string>" then
    { s with readingWxstring := true }
  else if s.readingWxstring then
    if !endsWithTag line "<" then { s with currentWxstring := s.currentWxstring ++ [c] }
    else { s with readingWxstring := false }
  else s

/-- The whole streaming parse of a response body: the per-character loop,
followed by the explicit final flush after the stream ends
(`// need to doColor this for the last airport`). -/
def runParser (input : List Char) : ParserState :=
  let s := input.foldl processChar initState
  { s with emitted := s.emitted ++ flushEmissions s, led := [] }

/-- Outcome of the network portion of an XML fetch cycle. -/
inductive XmlFetchOutcome where
  | connectFail
  | connectWaitTimeout
  | readTimeout
  | success (input : List Char)
deriving DecidableEq, Repr

/-- Replaying the parser's deferred `doColor` calls against the cycle state. -/
def applyEmissions (s : CycleState) (es : List Emission) : CycleState :=
  es.foldl (fun s e =>
    doColor e.identifier e.led e.wind e.gusts e.condition e.wxstring e.rawText s) s

/-- The legend-key loop at the end of the XML `getMetars`: any slot whose
configured entry is one of the four category names gets its fixed color. -/
def keyLeds (leds : List CRGB) : List CRGB :=
  (List.range NUM_AIRPORTS).foldl (fun a i =>
    if airports.getD i "" = "VFR" then a.set i green
    else if airports.getD i "" = "MVFR" then a.set i blue
    else if airports.getD i "" = "IFR" then a.set i red
    else if airports.getD i "" = "LIFR" then a.set i magenta
    else a) leds

/-- `getMetars` of the XML variant: the hazard vectors are cleared and *every*
LED is filled black (`fill_solid(leds, NUM_AIRPORTS, CRGB::Black)`) before the
connection is even attempted; a read timeout additionally fills every LED
cyan; on success the parsed records are resolved over the blanked array and
the legend-key loop runs. -/
def getMetars (outcome : XmlFetchOutcome) (leds : List CRGB) : Bool × CycleState :=
  let blanked := leds.map (fun _ => black)
  match outcome with
  | .connectFail => (false, ⟨blanked, [], [], []⟩)
  | .connectWaitTimeout => (false, ⟨blanked, [], [], []⟩)
  | .readTimeout => (false, ⟨leds.map (fun _ => cyan), [], [], []⟩)
  | .success input =>
    let final := applyEmissions ⟨blanked, [], [], []⟩ (runParser input).emitted
    (true, { final with leds := keyLeds final.leds })

/-- A concrete two-record response body used to exercise the flush timing:
the second record is never followed by another start-of-record marker. -/
def samplePayload : String :=
  "<raw_text>R1 G</raw_text><station_id>KGLS</station_id><wind_speed_kt>11</wind_speed_kt><raw_text>R2</raw_text><station_id>KT41</station_id>"

/-- The resolve/emit of the sample's first record (slot 0 holds `"KGLS"`). -/
def sampleEmission1 : Emission := ⟨"KGLS", 0, 11, 0, "", "", "R1 G"⟩

/-- The resolve/emit of the sample's second record (slot 1 holds `"KT41"`). -/
def sampleEmission2 : Emission := ⟨"KT41", 1, 0, 0, "", "", "R2"⟩

end XmlV

/-! ## Helper lemmas -/

/-- Appending a singleton always changes a list. -/
theorem append_singleton_ne (l : List Nat) (a : Nat) : l ++ [a] ≠ l := by
  intro h
  have := congrArg List.length h
  simp at this

namespace JsonV

/-- Effect of `doColor` on the lightning vector. -/
theorem doColor_lightningLeds (id : String) (led : Nat) (w g : Int)
    (c wx raw : String) (s : CycleState) :
    (doColor id led w g c wx raw s).lightningLeds =
      if ¬ led < 5 ∧ lightningCond wx raw = true then s.lightningLeds ++ [led]
      else s.lightningLeds := by
  unfold doColor
  split_ifs with h1 h2 h3 h4 h5 h6 <;> simp_all

/-- Effect of `doColor` on the severe-wind vector. -/
theorem doColor_highwindLeds (id : String) (led : Nat) (w g : Int)
    (c wx raw : String) (s : CycleState) :
    (doColor id led w g c wx raw s).highwindLeds =
      if ¬ led < 5 ∧ severeCond w g HIGH_WIND_THRESHOLD = true then
        s.highwindLeds ++ [led]
      else s.highwindLeds := by
  unfold doColor
  split_ifs with h1 h2 h3 h4 h5 h6 <;> simp_all

/-- Effect of `doColor` on the moderate-wind vector: the `else if` branch is
taken exactly when `moderateCond` holds. -/
theorem doColor_windLeds (id : String) (led : Nat) (w g : Int)
    (c wx raw : String) (s : CycleState) :
    (doColor id led w g c wx raw s).windLeds =
      if ¬ led < 5 ∧ moderateCond w g WIND_THRESHOLD HIGH_WIND_THRESHOLD = true then
        s.windLeds ++ [led]
      else s.windLeds := by
  unfold doColor moderateCond
  split_ifs <;> simp_all <;> omega

/-- `doColor` never touches LED entries other than its own slot. -/
theorem doColor_leds_getElem?_ne (id : String) (led : Nat) (w g : Int)
    (c wx raw : String) (s : CycleState) (j : Nat) (hj : j ≠ led) :
    (doColor id led w g c wx raw s).leds[j]? = s.leds[j]? := by
  have hne : led ≠ j := fun h => hj h.symm
  unfold doColor
  split_ifs <;> simp_all [List.getElem?_set_ne hne]

/-- The base color stored by `doColor` at its own (non-legend, in-range)
slot, as a function of category, winds and hazard text. -/
theorem doColor_leds_getElem?_eq (id : String) (led : Nat) (w g : Int)
    (c wx raw : String) (s : CycleState) (h5 : ¬ led < 5)
    (hlen : led < s.leds.length) :
    (doColor id led w g c wx raw s).leds[led]? =
      some (if c = "LIFR" then magenta
        else if c = "IFR" then red
        else if c = "MVFR" then blue
        else if c = "VFR" then green
        else if decide (w > 0) || decide (g > 0) || lightningCond wx raw then dimNeutral
        else black) := by
  unfold doColor
  split_ifs <;> simp_all [List.getElem?_set_self]

/-- Membership in the severe-wind vector after resolving one record's
matched-slot list. -/
theorem mem_foldl_doColor_highwind (id : String) (w g : Int)
    (c wx raw : String) (L : List Nat) (s : CycleState) (i : Nat) :
    (i ∈ (L.foldl (fun s l => doColor id l w g c wx raw s) s).highwindLeds) ↔
      i ∈ s.highwindLeds ∨
        (i ∈ L ∧ 5 ≤ i ∧ severeCond w g HIGH_WIND_THRESHOLD = true) := by
  induction L generalizing s with
  | nil => simp
  | cons hd tl ih =>
    simp only [List.foldl_cons, ih, doColor_highwindLeds]
    split_ifs with h
    · simp only [List.mem_append, List.mem_cons, List.not_mem_nil, or_false]
      constructor
      · rintro ((h1 | rfl) | h2)
        · exact Or.inl h1
        · exact Or.inr ⟨Or.inl rfl, by omega, h.2⟩
        · exact Or.inr ⟨Or.inr h2.1, h2.2⟩
      · rintro (h1 | ⟨(rfl | h2), h3⟩)
        · exact Or.inl (Or.inl h1)
        · exact Or.inl (Or.inr rfl)
        · exact Or.inr ⟨h2, h3⟩
    · simp only [List.mem_cons]
      constructor
      · rintro (h1 | h2)
        · exact Or.inl h1
        · exact Or.inr ⟨Or.inr h2.1, h2.2⟩
      · rintro (h1 | ⟨(rfl | h2), h3, h4⟩)
        · exact Or.inl h1
        · exact absurd ⟨by omega, h4⟩ h
        · exact Or.inr ⟨h2, h3, h4⟩

/-- Membership in the moderate-wind vector after resolving one record's
matched-slot list. -/
theorem mem_foldl_doColor_wind (id : String) (w g : Int)
    (c wx raw : String) (L : List Nat) (s : CycleState) (i : Nat) :
    (i ∈ (L.foldl (fun s l => doColor id l w g c wx raw s) s).windLeds) ↔
      i ∈ s.windLeds ∨
        (i ∈ L ∧ 5 ≤ i ∧
          moderateCond w g WIND_THRESHOLD HIGH_WIND_THRESHOLD = true) := by
  induction L generalizing s with
  | nil => simp
  | cons hd tl ih =>
    simp only [List.foldl_cons, ih, doColor_windLeds]
    split_ifs with h
    · simp only [List.mem_append, List.mem_cons, List.not_mem_nil, or_false]
      constructor
      · rintro ((h1 | rfl) | h2)
        · exact Or.inl h1
        · exact Or.inr ⟨Or.inl rfl, by omega, h.2⟩
        · exact Or.inr ⟨Or.inr h2.1, h2.2⟩
      · rintro (h1 | ⟨(rfl | h2), h3⟩)
        · exact Or.inl (Or.inl h1)
        · exact Or.inl (Or.inr rfl)
        · exact Or.inr ⟨h2, h3⟩
    · simp only [List.mem_cons]
      constructor
      · rintro (h1 | h2)
        · exact Or.inl h1
        · exact Or.inr ⟨Or.inr h2.1, h2.2⟩
      · rintro (h1 | ⟨(rfl | h2), h3, h4⟩)
        · exact Or.inl h1
        · exact absurd ⟨by omega, h4⟩ h
        · exact Or.inr ⟨h2, h3, h4⟩

/-- Membership in the lightning vector after resolving one record's
matched-slot list. -/
theorem mem_foldl_doColor_lightning (id : String) (w g : Int)
    (c wx raw : String) (L : List Nat) (s : CycleState) (i : Nat) :
    (i ∈ (L.foldl (fun s l => doColor id l w g c wx raw s) s).lightningLeds) ↔
      i ∈ s.lightningLeds ∨
        (i ∈ L ∧ 5 ≤ i ∧ lightningCond wx raw = true) := by
  induction L generalizing s with
  | nil => simp
  | cons hd tl ih =>
    simp only [List.foldl_cons, ih, doColor_lightningLeds]
    split_ifs with h
    · simp only [List.mem_append, List.mem_cons, List.not_mem_nil, or_false]
      constructor
      · rintro ((h1 | rfl) | h2)
        · exact Or.inl h1
        · exact Or.inr ⟨Or.inl rfl, by omega, h.2⟩
        · exact Or.inr ⟨Or.inr h2.1, h2.2⟩
      · rintro (h1 | ⟨(rfl | h2), h3⟩)
        · exact Or.inl (Or.inl h1)
        · exact Or.inl (Or.inr rfl)
        · exact Or.inr ⟨h2, h3⟩
    · simp only [List.mem_cons]
      constructor
      · rintro (h1 | h2)
        · exact Or.inl h1
        · exact Or.inr ⟨Or.inr h2.1, h2.2⟩
      · rintro (h1 | ⟨(rfl | h2), h3, h4⟩)
        · exact Or.inl h1
        · exact absurd ⟨by omega, h4⟩ h
        · exact Or.inr ⟨h2, h3, h4⟩

/-- Membership in the severe-wind vector after resolving a record batch. -/
theorem mem_foldl_processRecord_highwind (records : List MetarData)
    (s : CycleState) (i : Nat) :
    i ∈ (records.foldl processRecord s).highwindLeds ↔
      i ∈ s.highwindLeds ∨
        ∃ r ∈ records, i ∈ slotsFor r.icaoId ∧ 5 ≤ i ∧
          severeCond r.wspd r.wgst HIGH_WIND_THRESHOLD = true := by
  induction records generalizing s with
  | nil => simp
  | cons hd tl ih =>
    simp only [List.foldl_cons, ih, processRecord, mem_foldl_doColor_highwind,
      List.mem_cons]
    constructor
    · rintro ((h1 | h2) | ⟨r, hr, h3⟩)
      · exact Or.inl h1
      · exact Or.inr ⟨hd, Or.inl rfl, h2⟩
      · exact Or.inr ⟨r, Or.inr hr, h3⟩
    · rintro (h1 | ⟨r, (rfl | hr), h3⟩)
      · exact Or.inl (Or.inl h1)
      · exact Or.inl (Or.inr h3)
      · exact Or.inr ⟨r, hr, h3⟩

/-- Membership in the moderate-wind vector after resolving a record batch. -/
theorem mem_foldl_processRecord_wind (records : List MetarData)
    (s : CycleState) (i : Nat) :
    i ∈ (records.foldl processRecord s).windLeds ↔
      i ∈ s.windLeds ∨
        ∃ r ∈ records, i ∈ slotsFor r.icaoId ∧ 5 ≤ i ∧
          moderateCond r.wspd r.wgst WIND_THRESHOLD HIGH_WIND_THRESHOLD = true := by
  induction records generalizing s with
  | nil => simp
  | cons hd tl ih =>
    simp only [List.foldl_cons, ih, processRecord, mem_foldl_doColor_wind,
      List.mem_cons]
    constructor
    · rintro ((h1 | h2) | ⟨r, hr, h3⟩)
      · exact Or.inl h1
      · exact Or.inr ⟨hd, Or.inl rfl, h2⟩
      · exact Or.inr ⟨r, Or.inr hr, h3⟩
    · rintro (h1 | ⟨r, (rfl | hr), h3⟩)
      · exact Or.inl (Or.inl h1)
      · exact Or.inl (Or.inr h3)
      · exact Or.inr ⟨r, hr, h3⟩

/-- Membership in the lightning vector after resolving a record batch. -/
theorem mem_foldl_processRecord_lightning (records : List MetarData)
    (s : CycleState) (i : Nat) :
    i ∈ (records.foldl processRecord s).lightningLeds ↔
      i ∈ s.lightningLeds ∨
        ∃ r ∈ records, i ∈ slotsFor r.icaoId ∧ 5 ≤ i ∧
          lightningCond r.wxString r.rawOb = true := by
  induction records generalizing s with
  | nil => simp
  | cons hd tl ih =>
    simp only [List.foldl_cons, ih, processRecord, mem_foldl_doColor_lightning,
      List.mem_cons]
    constructor
    · rintro ((h1 | h2) | ⟨r, hr, h3⟩)
      · exact Or.inl h1
      · exact Or.inr ⟨hd, Or.inl rfl, h2⟩
      · exact Or.inr ⟨r, Or.inr hr, h3⟩
    · rintro (h1 | ⟨r, (rfl | hr), h3⟩)
      · exact Or.inl (Or.inl h1)
      · exact Or.inl (Or.inr h3)
      · exact Or.inr ⟨r, hr, h3⟩

/-- Every slot index matched by the slot registry is within the array. -/
theorem mem_slotsFor (icaoId : String) (i : Nat) :
    i ∈ slotsFor icaoId ↔ i < NUM_AIRPORTS ∧ airports.getD i "" = icaoId := by
  simp [slotsFor, List.mem_filter, List.mem_range, and_comm]

/-- A fold that only sets indices of its list leaves other entries alone. -/
theorem foldl_set_getElem?_not_mem {α : Type} (L : List Nat) (f : Nat → α)
    (a : List α) (j : Nat) (hj : ∀ i ∈ L, j ≠ i) :
    (L.foldl (fun acc i => acc.set i (f i)) a)[j]? = a[j]? := by
  induction L generalizing a with
  | nil => rfl
  | cons hd tl ih =>
    simp only [List.foldl_cons]
    rw [ih _ (fun i hi => hj i (List.mem_cons_of_mem _ hi)),
      List.getElem?_set_ne (fun h => hj hd (List.mem_cons_self _ _) h.symm)]

/-- The blank-weather-LEDs reset loop leaves the legend untouched. -/
theorem blankNonLegend_getElem?_lt5 (leds : List CRGB) (j : Nat) (hj : j < 5) :
    (blankNonLegend leds)[j]? = leds[j]? := by
  unfold blankNonLegend
  exact foldl_set_getElem?_not_mem _ (fun _ => black) _ _
    (fun i hi => by have := List.mem_range'.mp hi; omega)

/-- `setStatusLEDs` leaves the legend untouched. -/
theorem setStatusLEDs_getElem?_lt5 (color : CRGB) (leds : List CRGB) (j : Nat)
    (hj : j < 5) :
    (setStatusLEDs color leds)[j]? = leds[j]? := by
  unfold setStatusLEDs
  exact foldl_set_getElem?_not_mem _ (fun _ => color) _ _
    (fun i hi => by have := List.mem_range'.mp hi; omega)

/-- Resolving a record's matched-slot list leaves the legend untouched. -/
theorem foldl_doColor_leds_lt5 (id : String) (w g : Int) (c wx raw : String)
    (L : List Nat) (s : CycleState) (j : Nat) (hj : j < 5) :
    (L.foldl (fun s l => doColor id l w g c wx raw s) s).leds[j]? =
      s.leds[j]? := by
  induction L generalizing s with
  | nil => rfl
  | cons hd tl ih =>
    simp only [List.foldl_cons]
    rw [ih]
    by_cases hhd : hd < 5
    · simp [doColor, hhd]
    · exact doColor_leds_getElem?_ne _ _ _ _ _ _ _ _ _ (by omega)

/-- A whole resolve phase leaves the legend untouched. -/
theorem resolveBatch_leds_lt5 (records : List MetarData) (leds : List CRGB)
    (j : Nat) (hj : j < 5) :
    (resolveBatch records leds).leds[j]? = leds[j]? := by
  have h : ∀ (rs : List MetarData) (s : CycleState),
      (rs.foldl processRecord s).leds[j]? = s.leds[j]? := by
    intro rs
    induction rs with
    | nil => intro s; rfl
    | cons hd tl ih =>
      intro s
      simp only [List.foldl_cons, ih, processRecord]
      exact foldl_doColor_leds_lt5 _ _ _ _ _ _ _ _ _ hj
  unfold resolveBatch
  rw [h records ⟨blankNonLegend leds, [], [], []⟩, CycleState.leds_mk]
  exact blankNonLegend_getElem?_lt5 leds j hj

/-- Membership in the severe-wind vector at the end of a resolve phase. -/
theorem mem_resolveBatch_highwind (records : List MetarData) (leds : List CRGB)
    (i : Nat) :
    i ∈ (resolveBatch records leds).highwindLeds ↔
      ∃ r ∈ records, i ∈ slotsFor r.icaoId ∧ 5 ≤ i ∧
        severeCond r.wspd r.wgst HIGH_WIND_THRESHOLD = true := by
  unfold resolveBatch
  rw [mem_foldl_processRecord_highwind]
  simp

/-- Membership in the moderate-wind vector at the end of a resolve phase. -/
theorem mem_resolveBatch_wind (records : List MetarData) (leds : List CRGB)
    (i : Nat) :
    i ∈ (resolveBatch records leds).windLeds ↔
      ∃ r ∈ records, i ∈ slotsFor r.icaoId ∧ 5 ≤ i ∧
        moderateCond r.wspd r.wgst WIND_THRESHOLD HIGH_WIND_THRESHOLD = true := by
  unfold resolveBatch
  rw [mem_foldl_processRecord_wind]
  simp

/-- Membership in the lightning vector at the end of a resolve phase. -/
theorem mem_resolveBatch_lightning (records : List MetarData) (leds : List CRGB)
    (i : Nat) :
    i ∈ (resolveBatch records leds).lightningLeds ↔
      ∃ r ∈ records, i ∈ slotsFor r.icaoId ∧ 5 ≤ i ∧
        lightningCond r.wxString r.rawOb = true := by
  unfold resolveBatch
  rw [mem_foldl_processRecord_lightning]
  simp

/-! ### Blink-pass lemmas -/

/-- The LED component of the capture/overlay fold does not depend on the
accumulated original-color list. -/
theorem blinkFold_fst_acc (bc : CRGB) (f : Bool) (L : List Nat)
    (x : List CRGB) (o o' : List CRGB) :
    (L.foldl (blinkStep bc f) (x, o)).1 = (L.foldl (blinkStep bc f) (x, o')).1 := by
  induction L generalizing x o o' with
  | nil => rfl
  | cons hd tl ih =>
    simp only [List.foldl_cons, blinkStep]
    exact ih _ _ _

/-- The length of the LED array is unchanged by the capture/overlay fold. -/
theorem blinkFold_fst_length (bc : CRGB) (f : Bool) (L : List Nat)
    (x : List CRGB) (o : List CRGB) :
    (L.foldl (blinkStep bc f) (x, o)).1.length = x.length := by
  induction L generalizing x o with
  | nil => rfl
  | cons hd tl ih =>
    simp only [List.foldl_cons, blinkStep]
    rw [ih]
    split_ifs <;> simp [List.length_set]

/-- Slots not in the list are untouched by the capture/overlay fold
(no distinctness needed). -/
theorem blinkFold_fst_getElem?_not_mem (bc : CRGB) (f : Bool) (L : List Nat)
    (x : List CRGB) (o : List CRGB) (j : Nat) (hj : ∀ i ∈ L, j ≠ i) :
    (L.foldl (blinkStep bc f) (x, o)).1[j]? = x[j]? := by
  induction L generalizing x o with
  | nil => rfl
  | cons hd tl ih =>
    simp only [List.foldl_cons, blinkStep]
    rw [ih _ _ (fun i hi => hj i (List.mem_cons_of_mem _ hi))]
    have hne : hd ≠ j := fun h => hj hd (List.mem_cons_self _ _) h.symm
    split_ifs <;> simp [List.getElem?_set_ne hne]

/-- Slots not named by any pair are untouched by the restore fold. -/
theorem restoreFold_getElem?_not_mem (ps : List (Nat × CRGB)) (a : List CRGB)
    (j : Nat) (hj : ∀ p ∈ ps, j ≠ p.1) :
    (ps.foldl (fun a p => a.set p.1 p.2) a)[j]? = a[j]? := by
  induction ps generalizing a with
  | nil => rfl
  | cons hd tl ih =>
    simp only [List.foldl_cons]
    rw [ih _ (fun p hp => hj p (List.mem_cons_of_mem _ hp))]
    exact List.getElem?_set_ne
      (fun h => hj hd (List.mem_cons_self _ _) h.symm)

/-- Under distinct slot indices, the capture fold remembers exactly the
pre-pass colors. -/
theorem blinkFold_snd (bc : CRGB) (f : Bool) (L : List Nat)
    (x : List CRGB) (o : List CRGB) (hnd : L.Nodup) :
    (L.foldl (blinkStep bc f) (x, o)).2 =
      o ++ L.map (fun i => x.getD i black) := by
  induction L generalizing x o with
  | nil => simp
  | cons hd tl ih =>
    have hd_not : hd ∉ tl := (List.nodup_cons.mp hnd).1
    simp only [List.foldl_cons, blinkStep, List.map_cons]
    rw [ih _ _ (List.nodup_cons.mp hnd).2]
    have hmap : tl.map (fun i =>
        (if f then x.set hd (scaleVideo (x.getD hd black) 128)
         else x.set hd bc).getD i black) =
        tl.map (fun i => x.getD i black) := by
      refine List.map_congr_left (fun i hi => ?_)
      have hne : hd ≠ i := fun h => hd_not (h ▸ hi)
      split_ifs <;>
        simp [List.getD_eq_getElem?_getD, List.getElem?_set_ne hne]
    split_ifs at hmap ⊢ <;> simp_all

/-- Setting an in-range entry to its own value is the identity. -/
theorem set_getD_self (x : List CRGB) (i : Nat) (h : i < x.length) :
    x.set i (x.getD i black) = x := by
  apply List.ext_getElem?
  intro j
  by_cases hji : j = i
  · subst hji
    simp [List.getElem?_set_self, h, List.getD_eq_getElem?_getD,
      List.getElem?_eq_getElem h]
  · exact List.getElem?_set_ne (fun hh => hji hh.symm)

/-- One capture/overlay iteration, written through `overlayVal`. -/
theorem blinkStep_eq (bc : CRGB) (f : Bool) (st : List CRGB × List CRGB)
    (hd : Nat) :
    blinkStep bc f st hd =
      (st.1.set hd (overlayVal bc f st.1 hd),
        st.2 ++ [st.1.getD hd black]) := by
  unfold blinkStep overlayVal
  split_ifs <;> rfl

/-- The capture/overlay fold commutes with a `set` at an index outside the
list. -/
theorem blinkFold_fst_set_comm (bc : CRGB) (f : Bool) (L : List Nat)
    (hd : Nat) :
    ∀ (x : List CRGB) (v : CRGB), hd ∉ L →
      (L.foldl (blinkStep bc f) (x.set hd v, [])).1 =
        ((L.foldl (blinkStep bc f) (x, [])).1).set hd v := by
  induction L with
  | nil => intro x v _; rfl
  | cons a tl ih =>
    intro x v hnotin
    have ha : a ≠ hd := fun h => hnotin (h ▸ List.mem_cons_self _ _)
    have htl : hd ∉ tl := fun h => hnotin (List.mem_cons_of_mem _ h)
    simp only [List.foldl_cons, blinkStep_eq]
    have hgd : (x.set hd v).getD a black = x.getD a black := by
      simp [List.getD_eq_getElem?_getD,
        List.getElem?_set_ne (fun h => ha h.symm)]
    have hov : overlayVal bc f (x.set hd v) a = overlayVal bc f x a := by
      simp only [overlayVal, List.getD_eq_getElem?_getD,
        List.getElem?_set_ne (fun h => ha h.symm)]
    rw [hov]
    have hset : (x.set hd v).set a (overlayVal bc f x a) =
        (x.set a (overlayVal bc f x a)).set hd v :=
      List.set_comm _ _ _ (fun h => ha h.symm)
    rw [hset, blinkFold_fst_acc bc f tl _ _ [],
      blinkFold_fst_acc bc f tl (x.set a _) _ [], ih _ _ htl]

/-- Under distinct slot indices, the LED array after the capture/overlay fold
holds the overlay at listed slots and the original color elsewhere. -/
theorem blinkFold_fst_getElem? (bc : CRGB) (f : Bool) (L : List Nat)
    (x : List CRGB) (hnd : L.Nodup) (j : Nat) :
    (L.foldl (blinkStep bc f) (x, [])).1[j]? =
      if j ∈ L then
        (if j < x.length then some (overlayVal bc f x j) else none)
      else x[j]? := by
  induction L generalizing x with
  | nil => simp
  | cons hd tl ih =>
    have hd_not : hd ∉ tl := (List.nodup_cons.mp hnd).1
    have htl : tl.Nodup := (List.nodup_cons.mp hnd).2
    simp only [List.foldl_cons, blinkStep_eq]
    rw [blinkFold_fst_acc bc f tl _ _ [], ih _ htl]
    by_cases hj : j = hd
    · subst hj
      simp only [List.mem_cons, true_or, if_pos, if_neg hd_not]
      by_cases hlt : j < x.length
      · rw [if_pos hlt, List.getElem?_set_eq_of_lt _ hlt]
      · rw [if_neg hlt,
          List.getElem?_eq_none (by simp [List.length_set]; omega)]
    · have hne : hd ≠ j := fun h => hj h.symm
      have hmem : (j ∈ hd :: tl) ↔ j ∈ tl := by simp [List.mem_cons, hj]
      by_cases hjtl : j ∈ tl
      · rw [if_pos hjtl, if_pos (hmem.mpr hjtl)]
        have hov : overlayVal bc f (x.set hd (overlayVal bc f x hd)) j =
            overlayVal bc f x j := by
          simp [overlayVal, List.getD_eq_getElem?_getD,
            List.getElem?_set_ne hne]
        rw [hov]
        simp [List.length_set]
      · rw [if_neg hjtl, if_neg (fun h => hjtl (hmem.mp h)),
          List.getElem?_set_ne hne]

/-- Under distinct in-range slot indices, restoring the remembered colors
undoes the overlay exactly. -/
theorem blink_restore (bc : CRGB) (f : Bool) (L : List Nat) :
    ∀ (x : List CRGB), L.Nodup → (∀ i ∈ L, i < x.length) →
      ((L.zip (L.map (fun i => x.getD i black))).foldl
        (fun a p => a.set p.1 p.2) ((L.foldl (blinkStep bc f) (x, [])).1)) = x := by
  induction L with
  | nil => intro x _ _; rfl
  | cons hd tl ih =>
    intro x hnd hin
    have hd_not : hd ∉ tl := (List.nodup_cons.mp hnd).1
    have htl : tl.Nodup := (List.nodup_cons.mp hnd).2
    have hdlt : hd < x.length := hin hd (List.mem_cons_self _ _)
    simp only [List.map_cons, List.zip_cons_cons, List.foldl_cons, blinkStep_eq]
    rw [blinkFold_fst_acc bc f tl _ _ []]
    have hcomm := blinkFold_fst_set_comm bc f tl hd
      (x.set hd (overlayVal bc f x hd)) (x.getD hd black) hd_not
    rw [List.set_set] at hcomm
    rw [← hcomm, set_getD_self x hd hdlt]
    exact ih x htl (fun i hi => hin i (List.mem_cons_of_mem _ hi))

/-- With an empty slot list, `blinkLEDs` returns immediately: the LED array is
unchanged and nothing is pushed to the driver. -/
theorem blinkLEDs_empty (bc : CRGB) (f : Bool) (x : List CRGB) :
    blinkLEDs [] bc f x = (x, []) := rfl

/-- Under distinct in-range slot indices, the blink pass leaves the LED array
exactly as it was before the pass. -/
theorem blinkLEDs_fst (L : List Nat) (bc : CRGB) (f : Bool) (x : List CRGB)
    (hnd : L.Nodup) (hin : ∀ i ∈ L, i < x.length) :
    (blinkLEDs L bc f x).1 = x := by
  unfold blinkLEDs
  by_cases he : L.isEmpty
  · simp [he]
  · simp only [he, Bool.false_eq_true, if_false]
    rw [blinkFold_snd bc f L x [] hnd, List.nil_append]
    exact blink_restore bc f L x hnd hin

/-- Slots outside the list are untouched by the whole blink pass
(final array; no distinctness needed). -/
theorem blinkLEDs_fst_getElem?_not_mem (L : List Nat) (bc : CRGB) (f : Bool)
    (x : List CRGB) (j : Nat) (hj : ∀ i ∈ L, j ≠ i) :
    (blinkLEDs L bc f x).1[j]? = x[j]? := by
  unfold blinkLEDs
  by_cases he : L.isEmpty
  · simp [he]
  · simp only [he, Bool.false_eq_true, if_false]
    rw [restoreFold_getElem?_not_mem _ _ _
      (fun p hp => hj p.1 (List.of_mem_zip hp).1)]
    exact blinkFold_fst_getElem?_not_mem bc f L x [] j hj

/-- Slots outside the list are untouched in every frame the blink pass pushes
to the driver (no distinctness needed). -/
theorem blinkLEDs_frames_getElem?_not_mem (L : List Nat) (bc : CRGB) (f : Bool)
    (x : List CRGB) (j : Nat) (hj : ∀ i ∈ L, j ≠ i) :
    ∀ fr ∈ (blinkLEDs L bc f x).2, fr[j]? = x[j]? := by
  unfold blinkLEDs
  by_cases he : L.isEmpty
  · simp [he]
  · simp only [he, Bool.false_eq_true, if_false]
    intro fr hfr
    simp only [List.mem_cons, List.not_mem_nil, or_false] at hfr
    rcases hfr with rfl | rfl
    · exact blinkFold_fst_getElem?_not_mem bc f L x [] j hj
    · rw [restoreFold_getElem?_not_mem _ _ _
        (fun p hp => hj p.1 (List.of_mem_zip hp).1)]
      exact blinkFold_fst_getElem?_not_mem bc f L x [] j hj

end JsonV

namespace XmlV

/-- The base color stored by the XML `doColor` at its own (in-range) slot,
for every input: LIFR → magenta (also when the record's identifier is the
legend keyword `"LIFR"`), IFR → red, MVFR → blue, VFR → green, and otherwise
plain black — this variant has no dim-neutral branch. -/
theorem doColor_leds_getElem?_precedence (id : String) (led : Nat) (w g : Int)
    (c wx raw : String) (s : CycleState) (hlen : led < s.leds.length) :
    (doColor id led w g c wx raw s).leds[led]? =
      some (if c = "LIFR" ∨ id = "LIFR" then magenta
        else if c = "IFR" then red
        else if c = "MVFR" then blue
        else if c = "VFR" then green
        else black) := by
  unfold doColor
  split_ifs <;> simp_all [List.getElem?_set_eq_of_lt]

end XmlV

/-! ## Claims -/

/-- C1 (amended): in the JSON variant, `doColor` assigns the base color by
first-match precedence LIFR → magenta, IFR → red, MVFR → blue, VFR → green,
and when the category matches none of these the slot shows the dim neutral
color iff `windSpeedKt > 0`, `windGustKt > 0` or the lightning hazard holds,
and black otherwise; in the XML variant the same first-match category
precedence applies (with magenta also chosen when the record's identifier is
the legend keyword `"LIFR"`, which no matched airport slot carries) but the
no-category fallback is always black, regardless of wind or hazards. -/
theorem c1_base_color :
    (∀ (id : String) (led : Nat) (w g : Int) (c wx raw : String)
      (s : CycleState), ¬ led < 5 → led < s.leds.length →
      (JsonV.doColor id led w g c wx raw s).leds[led]? =
        some (if c = "LIFR" then magenta
          else if c = "IFR" then red
          else if c = "MVFR" then blue
          else if c = "VFR" then green
          else if decide (w > 0) || decide (g > 0) || lightningCond wx raw then
            dimNeutral
          else black)) ∧
    (∀ (id : String) (led : Nat) (w g : Int) (c wx raw : String)
      (s : CycleState), ¬ led < 5 → led < s.leds.length →
      c ≠ "LIFR" → c ≠ "IFR" → c ≠ "MVFR" → c ≠ "VFR" →
      ((JsonV.doColor id led w g c wx raw s).leds[led]? = some dimNeutral ↔
        (0 < w ∨ 0 < g ∨ lightningCond wx raw = true))) ∧
    (∀ (id : String) (led : Nat) (w g : Int) (c wx raw : String)
      (s : CycleState), led < s.leds.length →
      (XmlV.doColor id led w g c wx raw s).leds[led]? =
        some (if c = "LIFR" ∨ id = "LIFR" then magenta
          else if c = "IFR" then red
          else if c = "MVFR" then blue
          else if c = "VFR" then green
          else black)) := by
  refine ⟨fun id led w g c wx raw s h5 hlen =>
      JsonV.doColor_leds_getElem?_eq id led w g c wx raw s h5 hlen,
    fun id led w g c wx raw s h5 hlen h1 h2 h3 h4 => ?_,
    fun id led w g c wx raw s hlen =>
      XmlV.doColor_leds_getElem?_precedence id led w g c wx raw s hlen⟩
  rw [JsonV.doColor_leds_getElem?_eq id led w g c wx raw s h5 hlen,
    if_neg h1, if_neg h2, if_neg h3, if_neg h4]
  by_cases hcond :
      (decide (w > 0) || decide (g > 0) || lightningCond wx raw) = true
  · rw [if_pos hcond]
    simp only [Bool.or_eq_true, decide_eq_true_eq] at hcond
    exact iff_of_true rfl (by tauto)
  · rw [if_neg hcond]
    have hrhs : ¬(0 < w ∨ 0 < g ∨ lightningCond wx raw = true) := by
      simp only [Bool.or_eq_true, decide_eq_true_eq] at hcond
      tauto
    refine iff_of_false (fun hcontra => ?_) hrhs
    exact absurd (Option.some.inj hcontra) (by decide)

/-- C1 witness: concrete instances of all three parts of `c1_base_color`,
including a matched category (IFR → red) and the black fallback in the XML
variant. -/
theorem c1_base_color_witness :
    (JsonV.doColor "KSEA" 19 0 0 "VFR" "" ""
        ⟨List.replicate 34 black, [], [], []⟩).leds[19]? = some green ∧
    ((JsonV.doColor "KSEA" 19 5 0 "" "" ""
        ⟨List.replicate 34 black, [], [], []⟩).leds[19]? = some dimNeutral ↔
      (0 < (5 : Int) ∨ 0 < (0 : Int) ∨ lightningCond "" "" = true)) ∧
    (XmlV.doColor "KT41" 1 0 0 "IFR" "" ""
        ⟨List.replicate 25 green, [], [], []⟩).leds[1]? = some red ∧
    (XmlV.doColor "KGLS" 0 0 0 "" "" ""
        ⟨List.replicate 25 green, [], [], []⟩).leds[0]? = some black := by
  refine ⟨?_, ?_, ?_, ?_⟩
  · have h := c1_base_color.1 "KSEA" 19 0 0 "VFR" "" ""
      ⟨List.replicate 34 black, [], [], []⟩ (by decide) (by decide)
    rw [h]
    decide
  · exact c1_base_color.2.1 "KSEA" 19 5 0 "" "" ""
      ⟨List.replicate 34 black, [], [], []⟩ (by decide) (by decide)
      (by decide) (by decide) (by decide) (by decide)
  · have h := c1_base_color.2.2 "KT41" 1 0 0 "IFR" "" ""
      ⟨List.replicate 25 green, [], [], []⟩ (by decide)
    rw [h]
    decide
  · have h := c1_base_color.2.2 "KGLS" 0 0 0 "" "" ""
      ⟨List.replicate 25 green, [], [], []⟩ (by decide)
    rw [h]
    decide

/-- C1 counterexample: in the XML variant, a record with no flight category
but nonzero wind yields a black slot, not the dim neutral color, so the
claimed "dim neutral iff signal, in both parser variants" is false. -/
theorem c1_base_color_counterexample :
    (XmlV.doColor "KGLS" 0 5 0 "" "" "KGLS 05005KT"
        ⟨List.replicate 25 green, [], [], []⟩).leds[0]? = some black ∧
      black ≠ dimNeutral ∧ (5 : Int) > 0 := by
  decide

/-- C2: wind tiering is a strict threshold partition (for any thresholds with
`m ≤ h`): above `h` severe only; in `(m, h]` moderate only; at or below `m`
neither — and `doColor` of the JSON variant marks a non-legend slot
severe-wind exactly when `severeCond` holds at its `HIGH_WIND_THRESHOLD` and
moderate-wind exactly when `moderateCond` holds at its two thresholds; in both
variants the configured high threshold is ≥ the moderate threshold. -/
theorem c2_wind_tier (wind gusts m h : Int) (hmh : m ≤ h) :
    (max wind gusts > h →
      severeCond wind gusts h = true ∧ moderateCond wind gusts m h = false) ∧
    (m < max wind gusts → max wind gusts ≤ h →
      moderateCond wind gusts m h = true ∧ severeCond wind gusts h = false) ∧
    (max wind gusts ≤ m →
      severeCond wind gusts h = false ∧ moderateCond wind gusts m h = false) ∧
    (∀ (id : String) (led : Nat) (c wx raw : String) (s : CycleState),
      ¬ led < 5 →
      (((JsonV.doColor id led wind gusts c wx raw s).highwindLeds =
          s.highwindLeds ++ [led]) ↔
        severeCond wind gusts JsonV.HIGH_WIND_THRESHOLD = true) ∧
      (((JsonV.doColor id led wind gusts c wx raw s).windLeds =
          s.windLeds ++ [led]) ↔
        moderateCond wind gusts JsonV.WIND_THRESHOLD
          JsonV.HIGH_WIND_THRESHOLD = true)) ∧
    JsonV.WIND_THRESHOLD ≤ JsonV.HIGH_WIND_THRESHOLD ∧
    XmlV.WIND_THRESHOLD ≤ XmlV.HIGH_WIND_THRESHOLD := by
  refine ⟨fun hmax => ?_, fun hm hh => ?_, fun hle => ?_,
    fun id led c wx raw s h5 => ⟨?_, ?_⟩, by decide, by decide⟩
  · have hs : severeCond wind gusts h = true := by
      simp only [severeCond, Bool.or_eq_true, decide_eq_true_eq]
      exact lt_max_iff.mp hmax
    exact ⟨hs, by simp [moderateCond, hs]⟩
  · obtain ⟨hw, hg⟩ := max_le_iff.mp hh
    have hs : severeCond wind gusts h = false := by
      simp only [severeCond, Bool.or_eq_false_iff, decide_eq_false_iff_not]
      exact ⟨by omega, by omega⟩
    have hx : (decide (m < wind) || decide (m < gusts)) = true := by
      simp only [Bool.or_eq_true, decide_eq_true_eq]
      exact lt_max_iff.mp hm
    exact ⟨by simp [moderateCond, hs, hx], hs⟩
  · obtain ⟨hw, hg⟩ := max_le_iff.mp hle
    have hs : severeCond wind gusts h = false := by
      simp only [severeCond, Bool.or_eq_false_iff, decide_eq_false_iff_not]
      exact ⟨by omega, by omega⟩
    have hx : (decide (m < wind) || decide (m < gusts)) = false := by
      simp only [Bool.or_eq_false_iff, decide_eq_false_iff_not]
      exact ⟨by omega, by omega⟩
    exact ⟨hs, by simp [moderateCond, hx]⟩
  · rw [JsonV.doColor_highwindLeds]
    split_ifs with hc
    · exact iff_of_true rfl hc.2
    · have hsev : severeCond wind gusts JsonV.HIGH_WIND_THRESHOLD ≠ true :=
        fun hs => hc ⟨h5, hs⟩
      exact iff_of_false (fun hcontra => append_singleton_ne _ _ hcontra.symm)
        hsev
  · rw [JsonV.doColor_windLeds]
    split_ifs with hc
    · exact iff_of_true rfl hc.2
    · have hmod : moderateCond wind gusts JsonV.WIND_THRESHOLD
          JsonV.HIGH_WIND_THRESHOLD ≠ true := fun hs => hc ⟨h5, hs⟩
      exact iff_of_false (fun hcontra => append_singleton_ne _ _ hcontra.symm)
        hmod

/-- C2 witness: the partition at the JSON variant's own thresholds, plus the
marking of slot 6 for a severe-wind record. -/
theorem c2_wind_tier_witness :
    (severeCond 30 0 25 = true ∧ moderateCond 30 0 15 25 = false) ∧
    (moderateCond 20 0 15 25 = true ∧ severeCond 20 0 25 = false) ∧
    (severeCond 10 0 25 = false ∧ moderateCond 10 0 15 25 = false) ∧
    ((JsonV.doColor "KUIL" 6 30 0 "" "" ""
        ⟨List.replicate 34 black, [], [], []⟩).highwindLeds = [] ++ [6] ↔
      severeCond 30 0 JsonV.HIGH_WIND_THRESHOLD = true) := by
  refine ⟨(c2_wind_tier 30 0 15 25 (by decide)).1 (by decide),
    (c2_wind_tier 20 0 15 25 (by decide)).2.1 (by decide) (by decide),
    (c2_wind_tier 10 0 15 25 (by decide)).2.2.1 (by decide),
    ((c2_wind_tier 30 0 15 25 (by decide)).2.2.2.1 "KUIL" 6 "" "" ""
      ⟨List.replicate 34 black, [], [], []⟩ (by decide)).1⟩

/-- C3 (amended): in the JSON variant every failure path of `getMetars`
returns `false` with the LED store exactly as it was before the fetch cycle
began (only the hazard vectors are cleared); in the XML variant a failing
fetch does NOT preserve the store: every slot has already been blanked to
black before the connection is attempted, and a read timeout fills every slot
cyan. -/
theorem c3_fetch_failure_store :
    (∀ (leds : List CRGB) (outcome : JsonV.FetchOutcome),
      outcome.isFailure = true →
      JsonV.getMetars outcome leds = (false, ⟨leds, [], [], []⟩)) ∧
    (∀ leds : List CRGB,
      XmlV.getMetars .connectFail leds =
        (false, ⟨leds.map (fun _ => black), [], [], []⟩)) ∧
    (∀ leds : List CRGB,
      XmlV.getMetars .connectWaitTimeout leds =
        (false, ⟨leds.map (fun _ => black), [], [], []⟩)) ∧
    (∀ leds : List CRGB,
      XmlV.getMetars .readTimeout leds =
        (false, ⟨leds.map (fun _ => cyan), [], [], []⟩)) := by
  refine ⟨fun leds outcome hfail => ?_, fun leds => rfl, fun leds => rfl,
    fun leds => rfl⟩
  cases outcome with
  | success records => exact absurd hfail (by simp [JsonV.FetchOutcome.isFailure])
  | connectFail => rfl
  | connectWaitTimeout => rfl
  | headerTimeout => rfl
  | noJsonFound => rfl
  | emptyBody => rfl
  | deserializeError => rfl

/-- C3 witness: a concrete failed JSON fetch leaves a concrete store
untouched. -/
theorem c3_fetch_failure_store_witness :
    JsonV.getMetars .connectFail (List.replicate 34 green) =
      (false, ⟨List.replicate 34 green, [], [], []⟩) :=
  c3_fetch_failure_store.1 (List.replicate 34 green) .connectFail (by decide)

/-- C3 counterexample: in the XML variant a connection failure returns with
slot 0 black even though it held green before the fetch cycle, so the stored
colors are not "exactly what they were before". -/
theorem c3_fetch_failure_store_counterexample :
    (XmlV.getMetars .connectFail (List.replicate 25 green)).1 = false ∧
    (XmlV.getMetars .connectFail (List.replicate 25 green)).2.leds[0]? =
      some black ∧
    (List.replicate 25 green)[0]? = some green ∧ black ≠ green := by
  decide

/-- C5 (amended): when a tick attempts a fetch, `loop()` has already reset the
`loops` counter to zero (whether the fetch succeeds or fails); a failed
attempt ends the tick with the fixed `RETRY_TIMEOUT` delay, which is shorter
than the fetch interval, but because the counter was reset the next fetch
attempt comes only after a full fetch interval of ticks
(`loops + 1 ≥ loopThreshold`), not soon after the failure. -/
theorem c5_retry_backoff (l : Int) (ok hz : Bool) :
    ((JsonV.loopTick l ok hz).fetched = true →
      (JsonV.loopTick l ok hz).loops = 0) ∧
    (ok = false → (JsonV.loopTick l ok hz).fetched = true →
      (JsonV.loopTick l ok hz).delayMs = JsonV.RETRY_TIMEOUT) ∧
    JsonV.RETRY_TIMEOUT < JsonV.REQUEST_INTERVAL ∧
    ((JsonV.loopTick l ok hz).fetched = true ↔
      (l + 1 ≥ (JsonV.loopThreshold : Int) ∨ l + 1 = 0)) := by
  unfold JsonV.loopTick
  by_cases hc : (l + 1 ≥ (JsonV.loopThreshold : Int) ∨ l + 1 = 0)
  · rw [if_pos hc]
    cases ok <;> simp [hc, JsonV.RETRY_TIMEOUT, JsonV.REQUEST_INTERVAL]
  · rw [if_neg hc]
    simp [hc, JsonV.RETRY_TIMEOUT, JsonV.REQUEST_INTERVAL]

/-- C5 witness: at the tick that reaches the threshold with a failing fetch,
the counter is reset to zero and the tick ends with the retry delay. -/
theorem c5_retry_backoff_witness :
    (JsonV.loopTick 299 false false).loops = 0 ∧
    (JsonV.loopTick 299 false false).delayMs = JsonV.RETRY_TIMEOUT := by
  have h := c5_retry_backoff 299 false false
  exact ⟨h.1 (by decide), h.2.1 rfl (by decide)⟩

/-- C5 counterexample: after a failed fetch the counter IS zero, and the very
next tick does not attempt a fetch — the failed fetch is not retried until a
full interval of ticks elapses, refuting "without having reset the counter to
zero, so the failed fetch is retried soon". -/
theorem c5_retry_backoff_counterexample :
    (JsonV.loopTick 299 false false).fetched = true ∧
    (JsonV.loopTick 299 false false).loops = 0 ∧
    (JsonV.loopTick 0 false false).fetched = false ∧
    (JsonV.loopTick 0 true true).fetched = false ∧
    (JsonV.loopTick 1 true true).fetched = false := by
  decide

/-- C6: the gust-derivation fallback scans from the FIRST `'G'` of the raw
observation text.  On `"35003G15KT"` alone it derives 15, but on the real
METAR shape `"KGLS 35003G15KT"` — which contains the gust token `"G15KT"` —
the first `'G'` is inside the station identifier, no digits follow it, and the
derived gust is 0, contradicting the code's own comment ("Look for G followed
by 2-3 digits and KT") and the spec. -/
theorem c6_gust_parse_eval :
    JsonV.parseGust "KGLS 35003G15KT" = 0 ∧
    containsSubstr "KGLS 35003G15KT".toList "G15KT".toList = true ∧
    JsonV.parseGust "35003G15KT" = 15 := by
  decide

/-- C7 (amended): a hazard blink pass over a duplicate-free, in-range slot
list short-circuits with no driver push when the list is empty; otherwise the
overlay frame replaces each listed slot's color with the flat blink color or
the 50%-scaled version of its own color (fade mode), leaves all other slots
alone, pushes exactly the overlay frame and the restored frame, and the final
LED array equals the pre-pass array exactly. -/
theorem c7_blink_pass (L : List Nat) (bc : CRGB) (f : Bool) (x : List CRGB)
    (hnd : L.Nodup) (hin : ∀ i ∈ L, i < x.length) :
    (L.isEmpty = true → JsonV.blinkLEDs L bc f x = (x, [])) ∧
    (∀ i ∈ L, ((L.foldl (JsonV.blinkStep bc f) (x, [])).1)[i]? =
      some (if f then scaleVideo (x.getD i black) 128 else bc)) ∧
    (∀ j, j ∉ L → ((L.foldl (JsonV.blinkStep bc f) (x, [])).1)[j]? = x[j]?) ∧
    (JsonV.blinkLEDs L bc f x).1 = x ∧
    (L.isEmpty = false →
      (JsonV.blinkLEDs L bc f x).2 =
        [(L.foldl (JsonV.blinkStep bc f) (x, [])).1, x]) := by
  refine ⟨fun he => ?_, fun i hi => ?_, fun j hj => ?_,
    JsonV.blinkLEDs_fst L bc f x hnd hin, fun he => ?_⟩
  · rw [List.isEmpty_iff] at he
    subst he
    rfl
  · rw [JsonV.blinkFold_fst_getElem? bc f L x hnd i, if_pos hi,
      if_pos (hin i hi)]
    rfl
  · rw [JsonV.blinkFold_fst_getElem? bc f L x hnd j, if_neg hj]
  · unfold JsonV.blinkLEDs
    rw [if_neg (by simp [he])]
    have hrest : ((L.zip (L.foldl (JsonV.blinkStep bc f) (x, [])).2).foldl
        (fun a p => a.set p.1 p.2) (L.foldl (JsonV.blinkStep bc f) (x, [])).1) =
        x := by
      rw [JsonV.blinkFold_snd bc f L x [] hnd, List.nil_append]
      exact JsonV.blink_restore bc f L x hnd hin
    simp only [hrest]

/-- C7 witness: a concrete single-slot flat-mode pass overlays white and
restores the array exactly. -/
theorem c7_blink_pass_witness :
    (([6].foldl (JsonV.blinkStep white false)
      (List.replicate 10 green, [])).1)[6]? = some white ∧
    (JsonV.blinkLEDs [6] white false (List.replicate 10 green)).1 =
      List.replicate 10 green := by
  have h := c7_blink_pass [6] white false (List.replicate 10 green)
    (by decide) (by decide)
  refine ⟨?_, h.2.2.2.1⟩
  have h2 := h.2.1 6 (by decide)
  rw [h2]
  decide

/-- A successful JSON fetch is exactly a resolve of the extracted records. -/
theorem getMetars_success_eq (rs : List JsonV.JsonRecord) (leds : List CRGB) :
    JsonV.getMetars (.success rs) leds =
      (true, JsonV.resolveBatch (rs.map JsonV.toMetar) leds) := rfl

/-- C8 (amended): at the end of a fetch cycle whose records carry pairwise
distinct airport identifiers, no slot index is in both the moderate-wind and
severe-wind sets; lightning membership is characterized independently of the
wind tier; and a slot can be in the lightning set and a wind set at once. -/
theorem c8_wind_sets_exclusive :
    (∀ (rs : List JsonV.JsonRecord) (leds : List CRGB) (i : Nat),
      (rs.map (fun r => r.icaoId)).Nodup →
      ¬(i ∈ (JsonV.getMetars (.success rs) leds).2.windLeds ∧
        i ∈ (JsonV.getMetars (.success rs) leds).2.highwindLeds)) ∧
    (∀ (rs : List JsonV.JsonRecord) (leds : List CRGB) (i : Nat),
      i ∈ (JsonV.getMetars (.success rs) leds).2.lightningLeds ↔
        ∃ r ∈ rs, i ∈ JsonV.slotsFor r.icaoId ∧ 5 ≤ i ∧
          lightningCond r.wxString r.rawOb = true) ∧
    (6 ∈ (JsonV.getMetars (.success [⟨"KUIL", "", 30, "TS", ""⟩])
        (List.replicate 34 black)).2.highwindLeds ∧
      6 ∈ (JsonV.getMetars (.success [⟨"KUIL", "", 30, "TS", ""⟩])
        (List.replicate 34 black)).2.lightningLeds) := by
  refine ⟨fun rs leds i hnd hcontra => ?_, fun rs leds i => ?_, by decide⟩
  · obtain ⟨hw, hh⟩ := hcontra
    rw [getMetars_success_eq] at hw hh
    rw [JsonV.mem_resolveBatch_wind] at hw
    rw [JsonV.mem_resolveBatch_highwind] at hh
    obtain ⟨r1, hr1, hs1, _, hmod⟩ := hw
    obtain ⟨r2, hr2, hs2, _, hsev⟩ := hh
    obtain ⟨j1, hj1, rfl⟩ := List.mem_map.mp hr1
    obtain ⟨j2, hj2, rfl⟩ := List.mem_map.mp hr2
    have hcode1 := (JsonV.mem_slotsFor _ i).mp hs1
    have hcode2 := (JsonV.mem_slotsFor _ i).mp hs2
    have hicao : j1.icaoId = j2.icaoId := by
      have e1 : JsonV.airports.getD i "" = (JsonV.toMetar j1).icaoId := hcode1.2
      have e2 : JsonV.airports.getD i "" = (JsonV.toMetar j2).icaoId := hcode2.2
      simpa [JsonV.toMetar] using e1.symm.trans e2
    have hj12 : j1 = j2 :=
      List.inj_on_of_nodup_map hnd hj1 hj2 hicao
    subst hj12
    rw [moderateCond, hsev] at hmod
    simp at hmod
  · rw [getMetars_success_eq, JsonV.mem_resolveBatch_lightning]
    constructor
    · rintro ⟨r, hr, hs, h5, hl⟩
      obtain ⟨j, hj, rfl⟩ := List.mem_map.mp hr
      exact ⟨j, hj, by simpa [JsonV.toMetar] using hs, h5,
        by simpa [JsonV.toMetar] using hl⟩
    · rintro ⟨j, hj, hs, h5, hl⟩
      exact ⟨JsonV.toMetar j, List.mem_map.mpr ⟨j, hj, rfl⟩,
        by simpa [JsonV.toMetar] using hs, h5,
        by simpa [JsonV.toMetar] using hl⟩

/-- C8 witness: a batch with distinct identifiers separates the two wind
sets at slot 6, and lightning membership matches its characterization. -/
theorem c8_wind_sets_exclusive_witness :
    ¬(6 ∈ (JsonV.getMetars (.success [⟨"KUIL", "", 30, "", ""⟩])
        (List.replicate 34 black)).2.windLeds ∧
      6 ∈ (JsonV.getMetars (.success [⟨"KUIL", "", 30, "", ""⟩])
        (List.replicate 34 black)).2.highwindLeds) :=
  c8_wind_sets_exclusive.1 [⟨"KUIL", "", 30, "", ""⟩]
    (List.replicate 34 black) 6 (by decide)

/-- C8 counterexample: two records for the same airport (one severe, one
moderate) put slot 6 in BOTH wind sets, so the claimed mutual exclusion fails
for arbitrary record batches. -/
theorem c8_wind_sets_exclusive_counterexample :
    6 ∈ (JsonV.getMetars
        (.success [⟨"KUIL", "", 30, "", ""⟩, ⟨"KUIL", "", 20, "", ""⟩])
        (List.replicate 34 black)).2.highwindLeds ∧
    6 ∈ (JsonV.getMetars
        (.success [⟨"KUIL", "", 30, "", ""⟩, ⟨"KUIL", "", 20, "", ""⟩])
        (List.replicate 34 black)).2.windLeds := by
  decide

/-- C10: at the end of a successful JSON fetch cycle every index in the three
hazard vectors is a non-legend in-range slot (`5 ≤ i < NUM_AIRPORTS`), and a
blink pass over a list of such indices reads and writes only in-range entries
and never changes a legend slot, in any pushed frame or in the final array. -/
theorem c10_hazard_indices_in_range :
    (∀ (rs : List JsonV.JsonRecord) (leds : List CRGB) (i : Nat),
      (i ∈ (JsonV.getMetars (.success rs) leds).2.lightningLeds ∨
        i ∈ (JsonV.getMetars (.success rs) leds).2.windLeds ∨
        i ∈ (JsonV.getMetars (.success rs) leds).2.highwindLeds) →
      5 ≤ i ∧ i < JsonV.NUM_AIRPORTS) ∧
    (∀ (L : List Nat) (bc : CRGB) (f : Bool) (x : List CRGB) (j : Nat),
      (∀ i ∈ L, 5 ≤ i) → j < 5 →
      ((JsonV.blinkLEDs L bc f x).1[j]? = x[j]? ∧
        ∀ fr ∈ (JsonV.blinkLEDs L bc f x).2, fr[j]? = x[j]?)) := by
  refine ⟨fun rs leds i hi => ?_, fun L bc f x j hL hj => ?_⟩
  · rw [getMetars_success_eq] at hi
    rcases hi with h | h | h
    · obtain ⟨r, _, hs, h5, _⟩ := (JsonV.mem_resolveBatch_lightning _ _ _).mp h
      exact ⟨h5, ((JsonV.mem_slotsFor _ _).mp hs).1⟩
    · obtain ⟨r, _, hs, h5, _⟩ := (JsonV.mem_resolveBatch_wind _ _ _).mp h
      exact ⟨h5, ((JsonV.mem_slotsFor _ _).mp hs).1⟩
    · obtain ⟨r, _, hs, h5, _⟩ := (JsonV.mem_resolveBatch_highwind _ _ _).mp h
      exact ⟨h5, ((JsonV.mem_slotsFor _ _).mp hs).1⟩
  · have hne : ∀ i ∈ L, j ≠ i := fun i hi => by have := hL i hi; omega
    exact ⟨JsonV.blinkLEDs_fst_getElem?_not_mem L bc f x j hne,
      JsonV.blinkLEDs_frames_getElem?_not_mem L bc f x j hne⟩

/-- C10 witness: concrete instances of both parts. -/
theorem c10_hazard_indices_in_range_witness :
    (5 ≤ 6 ∧ 6 < JsonV.NUM_AIRPORTS) ∧
    (JsonV.blinkLEDs [6] white false (List.replicate 34 green)).1[0]? =
      (List.replicate 34 green)[0]? := by
  refine ⟨?_, ?_⟩
  · exact c10_hazard_indices_in_range.1 [⟨"KUIL", "", 30, "TS", ""⟩]
      (List.replicate 34 black) 6 (Or.inl (by decide))
  · exact (c10_hazard_indices_in_range.2 [6] white false
      (List.replicate 34 green) 0 (by decide) (by decide)).1

namespace JsonV

/-- Every operation keeps the hazard vectors free of legend indices. -/
theorem step_vecsNonLegend (s : CycleState) (op : Op)
    (hinv : vecsNonLegend s) : vecsNonLegend (step s op) := by
  cases op with
  | fetch outcome =>
    cases outcome with
    | success rs =>
      intro i hi
      simp only [step, getMetars_success_eq] at hi
      rcases hi with h | h | h
      · exact ((mem_resolveBatch_lightning _ _ _).mp h).choose_spec.2.2.1
      · exact ((mem_resolveBatch_wind _ _ _).mp h).choose_spec.2.2.1
      · exact ((mem_resolveBatch_highwind _ _ _).mp h).choose_spec.2.2.1
    | connectFail => intro i hi; simp [step, getMetars] at hi
    | connectWaitTimeout => intro i hi; simp [step, getMetars] at hi
    | headerTimeout => intro i hi; simp [step, getMetars] at hi
    | noJsonFound => intro i hi; simp [step, getMetars] at hi
    | emptyBody => intro i hi; simp [step, getMetars] at hi
    | deserializeError => intro i hi; simp [step, getMetars] at hi
  | status color => intro i hi; exact hinv i (by simpa [step] using hi)
  | blinkLightning => intro i hi; exact hinv i (by simpa [step] using hi)
  | blinkHighwind => intro i hi; exact hinv i (by simpa [step] using hi)
  | blinkWind => intro i hi; exact hinv i (by simpa [step] using hi)

/-- Every operation leaves the legend LEDs (indices below 5) unchanged,
provided the hazard vectors name only non-legend slots. -/
theorem step_leds_getElem?_lt5 (s : CycleState) (op : Op) (j : Nat)
    (hj : j < 5) (hinv : vecsNonLegend s) :
    (step s op).leds[j]? = s.leds[j]? := by
  cases op with
  | fetch outcome =>
    cases outcome with
    | success rs =>
      simp only [step, getMetars_success_eq]
      exact resolveBatch_leds_lt5 _ _ _ hj
    | connectFail => simp [step, getMetars]
    | connectWaitTimeout => simp [step, getMetars]
    | headerTimeout => simp [step, getMetars]
    | noJsonFound => simp [step, getMetars]
    | emptyBody => simp [step, getMetars]
    | deserializeError => simp [step, getMetars]
  | status color =>
    simp only [step]
    exact setStatusLEDs_getElem?_lt5 _ _ _ hj
  | blinkLightning =>
    simp only [step]
    exact blinkLEDs_fst_getElem?_not_mem _ _ _ _ _
      (fun i hi => by have := hinv i (Or.inl hi); omega)
  | blinkHighwind =>
    simp only [step]
    exact blinkLEDs_fst_getElem?_not_mem _ _ _ _ _
      (fun i hi => by have := hinv i (Or.inr (Or.inr hi)); omega)
  | blinkWind =>
    simp only [step]
    exact blinkLEDs_fst_getElem?_not_mem _ _ _ _ _
      (fun i hi => by have := hinv i (Or.inr (Or.inl hi)); omega)

end JsonV

/-- C4: starting from any state whose hazard vectors name only non-legend
slots (as after initialization, when they are empty), no sequence of fetch
cycles, connectivity-status fills, and hazard blink passes ever changes the
color of a legend slot (indices 0 through 4). -/
theorem c4_legend_invariant (ops : List JsonV.Op) (s0 : CycleState)
    (hinv : JsonV.vecsNonLegend s0) (j : Nat) (hj : j < 5) :
    (ops.foldl JsonV.step s0).leds[j]? = s0.leds[j]? := by
  induction ops generalizing s0 with
  | nil => rfl
  | cons op tl ih =>
    rw [List.foldl_cons, ih (JsonV.step s0 op)
      (JsonV.step_vecsNonLegend s0 op hinv),
      JsonV.step_leds_getElem?_lt5 s0 op j hj hinv]

/-- C4 witness: a concrete mixed sequence of operations leaves legend slot 0
at its initial color. -/
theorem c4_legend_invariant_witness :
    ([JsonV.Op.status orange, JsonV.Op.fetch .connectFail,
        JsonV.Op.blinkLightning,
        JsonV.Op.fetch (.success [⟨"KUIL", "", 30, "TS", ""⟩]),
        JsonV.Op.blinkWind, JsonV.Op.blinkHighwind].foldl JsonV.step
      ⟨List.replicate 34 green, [], [], []⟩).leds[0]? =
    (⟨List.replicate 34 green, [], [], []⟩ : CycleState).leds[0]? :=
  c4_legend_invariant _ _ (fun i hi => by simp at hi) 0 (by decide)

set_option maxRecDepth 6000 in
/-- C9: the streaming parser emits (resolves via `doColor`) the just-completed
record exactly at the step where the updated line ends with the `<raw_text>`
start-of-record marker and a record is pending; the run over a whole stream
performs one explicit final flush after the input ends; and on a concrete
two-record payload the in-loop fold emits only the first record while the full
run also emits the second via the final flush. -/
theorem c9_parser_flush_timing :
    (∀ (s : XmlV.ParserState) (c : Char),
      (XmlV.processChar s c).emitted =
        if (XmlV.endsWithTag (XmlV.lineAfter s c) "<raw_text>" &&
            !s.led.isEmpty) = true
        then s.emitted ++ XmlV.flushEmissions s
        else s.emitted) ∧
    (∀ input : List Char,
      (XmlV.runParser input).emitted =
        (input.foldl XmlV.processChar XmlV.initState).emitted ++
          XmlV.flushEmissions (input.foldl XmlV.processChar XmlV.initState)) ∧
    ((XmlV.samplePayload.toList.foldl XmlV.processChar
        XmlV.initState).emitted = [XmlV.sampleEmission1]) ∧
    ((XmlV.runParser XmlV.samplePayload.toList).emitted =
      [XmlV.sampleEmission1, XmlV.sampleEmission2]) := by
  refine ⟨fun s c => ?_, fun input => rfl, by decide, by decide⟩
  simp only [XmlV.processChar]
  by_cases h1 : XmlV.endsWithTag (XmlV.lineAfter s c) "<raw_text>" = true
  · by_cases h2 : s.led.isEmpty = true
    · simp [h1, h2]
    · simp [h1, h2]
      rfl
  · rw [if_neg h1]
    have hrhs : (XmlV.endsWithTag (XmlV.lineAfter s c) "<raw_text>" &&
        !s.led.isEmpty) = false := by
      rw [Bool.eq_false_iff]
      intro hcontra
      exact h1 (Bool.and_elim_left hcontra)
    rw [hrhs]
    simp only [Bool.false_eq_true, if_false]
    have hP : ∀ (p : Prop) (inst : Decidable p) (a b : XmlV.ParserState),
        a.emitted = s.emitted → b.emitted = s.emitted →
        (@ite _ p inst a b).emitted = s.emitted := by
      intro p inst a b ha hb
      by_cases hp : p
      · rw [if_pos hp]
        exact ha
      · rw [if_neg hp]
        exact hb
    repeat' (first | rfl | apply hP)

/-- C7 counterexample: with a duplicated slot index the restore step does not
recover the pre-pass color — after a flat-mode pass over `[6, 6]` slot 6 holds
the overlay color, not its original color — so the claim as stated (for every
slot list) is false. -/
theorem c7_blink_pass_counterexample :
    (JsonV.blinkLEDs [6, 6] white false (List.replicate 10 green)).1[6]? =
      some white ∧
    white ≠ green ∧ (List.replicate 10 green)[6]? = some green := by
  decide

end LedSectional
